import Mathlib

/-!
# A model of the per-frame gesture-classification loop

A shallow embedding of the body of `predictWebcam` in
`src/components/HandController.tsx`, together with proofs of the
specification's claims about it.

Coordinates are modelled as exact real numbers; `Math.sqrt` becomes
`Real.sqrt`.  The mutable refs (`smoothRightPinchRef`,
`smoothLeftFingerCenterRef`, `wasContactingRef`, `prevLeftPosRef`) and the
published control fields (`controlRef.current.rotationVelocity`,
`.zoomSpeed`, `.panPosition`, `.isDragging`, plus the gesture label passed
to `onStateChange`) are gathered into one state record `S`; `processFrame`
is one pass of the body of `predictWebcam`, the detection result being a
`Frame` (at most one hand per handedness, as delivered by the hand
identification loop).  `newDirection` is never written by the source
(it stays `MoveDirection.CENTER` on every frame) and is omitted.
-/

namespace HandGesture

open scoped Classical

/-- A 2D point (landmark coordinates are normalized x, y; the `z` relative
depth is never read by `predictWebcam` and is omitted). -/
@[ext]
structure Pt where
  x : ℝ
  y : ℝ

/-- A hand observation: the landmark array, indexed as in MediaPipe
(0 wrist, 4 thumb tip, 8 index tip, 12 middle tip, 16 ring tip,
20 pinky tip; 6/10/14/18 the corresponding PIP joints). -/
abbrev Hand := ℕ → Pt

/-- One detection result, after the handedness identification loop:
at most one hand per handedness. -/
structure Frame where
  left : Option Hand
  right : Option Hand

/-- The gesture labels of `types.ts` (`GestureType`). -/
inductive GestureType where
  | NONE
  | RIGHT_PINCH_DRAG
  | LEFT_TWO_FINGER_ROTATE
  | ZOOM_IN_PALM
  | ZOOM_OUT_FIST
  | DUAL_HAND_CONTACT
deriving DecidableEq

/-- Constants of `HandController.tsx`. -/
noncomputable def PINCH_THRESHOLD : ℝ := 0.05

noncomputable def FINGER_CONTACT_THRESHOLD : ℝ := 0.05

noncomputable def CONTACT_THRESHOLD : ℝ := 0.12

noncomputable def ZOOM_SENSITIVITY : ℝ := 0.35

noncomputable def DRAG_SCALE_X : ℝ := 7.0

noncomputable def DRAG_SCALE_Y : ℝ := 5.5

noncomputable def ROTATION_SENSITIVITY : ℝ := 6.0

noncomputable def SMOOTHING_FACTOR_ROTATION : ℝ := 0.4

noncomputable def ROTATION_DEADZONE : ℝ := 0.002

/-- `lerp` of `HandController.tsx`. -/
noncomputable def lerp (start e factor : ℝ) : ℝ := start + (e - start) * factor

/-- `getDistance`: Euclidean distance (`Math.sqrt(Math.pow(..,2) + Math.pow(..,2))`). -/
noncomputable def getDistance (p1 p2 : Pt) : ℝ :=
  Real.sqrt ((p1.x - p2.x) ^ 2 + (p1.y - p2.y) ^ 2)

/-- `getPinchDistance`: thumb tip (4) to index tip (8). -/
noncomputable def getPinchDistance (landmarks : Hand) : ℝ :=
  getDistance (landmarks 4) (landmarks 8)

/-- `isFingerExtended`: tip strictly above (smaller y than) the PIP joint. -/
def isFingerExtended (landmarks : Hand) (tipIdx pipIdx : ℕ) : Prop :=
  (landmarks tipIdx).y < (landmarks pipIdx).y

/-- The full mutable state of one `HandController` session: the four
smoothing/hysteresis refs together with the published control fields. -/
structure S where
  smoothRightPinch : Pt
  smoothLeftFingerCenter : Pt
  wasContacting : Bool
  prevLeftPos : Option Pt
  rotationVelocity : Pt
  zoomSpeed : ℝ
  panPosition : Pt
  isDragging : Bool
  gesture : GestureType

/-- Outcome of the right-hand section (lines 191-229): updated pinch
anchor, updated pan target, the `isDragging` local, and the gesture label
so far. -/
structure RightOut where
  smooth : Pt
  pan : Pt
  dragging : Bool
  gesture : GestureType

/-- Outcome of the left-hand section (lines 232-281): updated two-finger
anchor, updated rotation history, the rotation-velocity locals, the zoom
local, and the final gesture label. -/
structure LeftOut where
  smooth : Pt
  prev : Option Pt
  rotVel : Pt
  zoom : ℝ
  gesture : GestureType

/-- The right-hand branch: pinch detection, adaptive smoothing of the
pinch midpoint, pan-target update; on release, silent re-anchoring of the
smoothing ref to the wrist. -/
noncomputable def rightHandStep (smooth pan : Pt) (rightHandLandmarks : Hand) : RightOut :=
  let pinchDist := getPinchDistance rightHandLandmarks
  if pinchDist < PINCH_THRESHOLD then
    let thumbTip := rightHandLandmarks 4
    let indexTip := rightHandLandmarks 8
    let rawX := (thumbTip.x + indexTip.x) / 2
    let rawY := (thumbTip.y + indexTip.y) / 2
    let dx := rawX - smooth.x
    let dy := rawY - smooth.y
    let movementDelta := Real.sqrt (dx * dx + dy * dy)
    let adaptiveFactor := min 0.85 (max 0.1 (movementDelta * 15))
    let sx := lerp smooth.x rawX adaptiveFactor
    let sy := lerp smooth.y rawY adaptiveFactor
    { smooth := ⟨sx, sy⟩,
      pan := ⟨(0.5 - sx) * DRAG_SCALE_X, (0.5 - sy) * DRAG_SCALE_Y⟩,
      dragging := true,
      gesture := GestureType.RIGHT_PINCH_DRAG }
  else
    { smooth := ⟨(rightHandLandmarks 0).x, (rightHandLandmarks 0).y⟩,
      pan := pan,
      dragging := false,
      gesture := GestureType.NONE }

/-- The left-hand branch: fixed-rate smoothing of the index/middle
midpoint, then rotate / zoom-in / zoom-out classification. -/
noncomputable def leftHandStep (smooth : Pt) (prevLeftPos : Option Pt)
    (gestureIn : GestureType) (leftHandLandmarks : Hand) : LeftOut :=
  let indexTip := leftHandLandmarks 8
  let middleTip := leftHandLandmarks 12
  let fingersDist := getDistance indexTip middleTip
  let isIndexUp := isFingerExtended leftHandLandmarks 8 6
  let isMiddleUp := isFingerExtended leftHandLandmarks 12 10
  let isRingUp := isFingerExtended leftHandLandmarks 16 14
  let isPinkyUp := isFingerExtended leftHandLandmarks 20 18
  let rawFingerCenterX := (indexTip.x + middleTip.x) / 2
  let rawFingerCenterY := (indexTip.y + middleTip.y) / 2
  let sx := lerp smooth.x rawFingerCenterX SMOOTHING_FACTOR_ROTATION
  let sy := lerp smooth.y rawFingerCenterY SMOOTHING_FACTOR_ROTATION
  if fingersDist < FINGER_CONTACT_THRESHOLD ∧ isIndexUp ∧ isMiddleUp then
    let rotVel : Pt :=
      match prevLeftPos with
      | some prev =>
          let deltaX := sx - prev.x
          let deltaY := sy - prev.y
          if |deltaX| > ROTATION_DEADZONE ∨ |deltaY| > ROTATION_DEADZONE then
            ⟨deltaY * ROTATION_SENSITIVITY, -deltaX * ROTATION_SENSITIVITY⟩
          else ⟨0, 0⟩
      | none => ⟨0, 0⟩
    { smooth := ⟨sx, sy⟩, prev := some ⟨sx, sy⟩, rotVel := rotVel, zoom := 0,
      gesture := GestureType.LEFT_TWO_FINGER_ROTATE }
  else
    if isIndexUp ∧ isMiddleUp ∧ isRingUp ∧ isPinkyUp ∧ fingersDist ≥ FINGER_CONTACT_THRESHOLD then
      { smooth := ⟨sx, sy⟩, prev := none, rotVel := ⟨0, 0⟩, zoom := ZOOM_SENSITIVITY,
        gesture := GestureType.ZOOM_IN_PALM }
    else if ¬isIndexUp ∧ ¬isMiddleUp ∧ ¬isRingUp ∧ ¬isPinkyUp then
      { smooth := ⟨sx, sy⟩, prev := none, rotVel := ⟨0, 0⟩, zoom := -ZOOM_SENSITIVITY,
        gesture := GestureType.ZOOM_OUT_FIST }
    else
      { smooth := ⟨sx, sy⟩, prev := none, rotVel := ⟨0, 0⟩, zoom := 0,
        gesture := gestureIn }

/-- The dual-hand hysteresis decision (lines 170-184): only evaluable when
both hands are present; the threshold is `CONTACT_THRESHOLD * 1.3` while
already in contact and `CONTACT_THRESHOLD` otherwise. -/
noncomputable def isContactingOf (st : S) (f : Frame) : Bool :=
  match f.left, f.right with
  | some leftHandLandmarks, some rightHandLandmarks =>
      let dist := getDistance (leftHandLandmarks 0) (rightHandLandmarks 0)
      let threshold := if st.wasContacting then CONTACT_THRESHOLD * 1.3 else CONTACT_THRESHOLD
      if dist < threshold then true else false
  | _, _ => false

/-- One pass of the body of `predictWebcam` (lines 138-292).  When no hand
is detected the refs are untouched and the default (zero) control state is
published; otherwise contact hysteresis runs first, superseding all
per-hand logic, and the per-hand sections run only when not contacting. -/
noncomputable def processFrame (st : S) (f : Frame) : S :=
  if f.left.isSome || f.right.isSome then
    if isContactingOf st f then
      { st with wasContacting := true, rotationVelocity := ⟨0, 0⟩, zoomSpeed := 0,
                isDragging := false, gesture := GestureType.DUAL_HAND_CONTACT }
    else
      let r : RightOut :=
        match f.right with
        | some rightHandLandmarks =>
            rightHandStep st.smoothRightPinch st.panPosition rightHandLandmarks
        | none => ⟨st.smoothRightPinch, st.panPosition, false, GestureType.NONE⟩
      match f.left with
      | some leftHandLandmarks =>
          let l := leftHandStep st.smoothLeftFingerCenter st.prevLeftPos r.gesture
            leftHandLandmarks
          { smoothRightPinch := r.smooth, smoothLeftFingerCenter := l.smooth,
            wasContacting := false, prevLeftPos := l.prev,
            rotationVelocity := l.rotVel, zoomSpeed := l.zoom,
            panPosition := r.pan, isDragging := r.dragging, gesture := l.gesture }
      | none =>
          { smoothRightPinch := r.smooth, smoothLeftFingerCenter := st.smoothLeftFingerCenter,
            wasContacting := false, prevLeftPos := st.prevLeftPos,
            rotationVelocity := ⟨0, 0⟩, zoomSpeed := 0,
            panPosition := r.pan, isDragging := r.dragging, gesture := r.gesture }
  else
    { st with rotationVelocity := ⟨0, 0⟩, zoomSpeed := 0, isDragging := false,
              gesture := GestureType.NONE }

/-- The state at session start: smoothing refs at `(0.5, 0.5)`, no contact,
no rotation history, control state at rest. -/
noncomputable def initState : S :=
  { smoothRightPinch := ⟨0.5, 0.5⟩, smoothLeftFingerCenter := ⟨0.5, 0.5⟩,
    wasContacting := false, prevLeftPos := none,
    rotationVelocity := ⟨0, 0⟩, zoomSpeed := 0, panPosition := ⟨0, 0⟩,
    isDragging := false, gesture := GestureType.NONE }

/-- Iterated frame processing: `runFrames st F n` is the state after the
frames `F 0, …, F (n-1)`. -/
noncomputable def runFrames (st : S) (F : ℕ → Frame) : ℕ → S
  | 0 => st
  | n + 1 => processFrame (runFrames st F n) (F n)

/-- A hand whose landmarks all sit at one point (used for concrete runs). -/
def constHand (p : Pt) : Hand := fun _ => p

/-! ## Basic evaluation lemmas -/

theorem getDistance_same_y (a b y : ℝ) : getDistance ⟨a, y⟩ ⟨b, y⟩ = |a - b| := by
  simp [getDistance, Real.sqrt_sq_eq_abs]

theorem getDistance_self (p : Pt) : getDistance p p = 0 := by
  simp [getDistance]

theorem getPinchDistance_constHand (p : Pt) : getPinchDistance (constHand p) = 0 := by
  simp [getPinchDistance, constHand, getDistance_self]

/-! ## Structural lemmas about one frame pass -/

theorem processFrame_noHands (st : S) :
    processFrame st ⟨none, none⟩ =
      { st with rotationVelocity := ⟨0, 0⟩, zoomSpeed := 0, isDragging := false,
                gesture := GestureType.NONE } := by
  simp [processFrame]

theorem isContactingOf_both (st : S) (lh rh : Hand) :
    isContactingOf st ⟨some lh, some rh⟩ = true ↔
      getDistance (lh 0) (rh 0) <
        (if st.wasContacting then CONTACT_THRESHOLD * 1.3 else CONTACT_THRESHOLD) := by
  show (if getDistance (lh 0) (rh 0) <
      (if st.wasContacting then CONTACT_THRESHOLD * 1.3 else CONTACT_THRESHOLD)
    then true else false) = true ↔ _
  split_ifs <;> simp_all

theorem isContactingOf_noLeft (st : S) (ro : Option Hand) :
    isContactingOf st ⟨none, ro⟩ = false := by
  cases ro <;> rfl

theorem isContactingOf_noRight (st : S) (lo : Option Hand) :
    isContactingOf st ⟨lo, none⟩ = false := by
  cases lo <;> rfl

theorem processFrame_contact_both (st : S) (lh rh : Hand)
    (h : isContactingOf st ⟨some lh, some rh⟩ = true) :
    processFrame st ⟨some lh, some rh⟩ =
      { st with wasContacting := true, rotationVelocity := ⟨0, 0⟩, zoomSpeed := 0,
                isDragging := false, gesture := GestureType.DUAL_HAND_CONTACT } := by
  simp [processFrame, h]

theorem processFrame_noContact_both (st : S) (lh rh : Hand)
    (h : isContactingOf st ⟨some lh, some rh⟩ = false) :
    processFrame st ⟨some lh, some rh⟩ =
      (let r := rightHandStep st.smoothRightPinch st.panPosition rh
       let l := leftHandStep st.smoothLeftFingerCenter st.prevLeftPos r.gesture lh
       { smoothRightPinch := r.smooth, smoothLeftFingerCenter := l.smooth,
         wasContacting := false, prevLeftPos := l.prev,
         rotationVelocity := l.rotVel, zoomSpeed := l.zoom,
         panPosition := r.pan, isDragging := r.dragging, gesture := l.gesture }) := by
  simp [processFrame, h]

theorem processFrame_rightOnly (st : S) (rh : Hand) :
    processFrame st ⟨none, some rh⟩ =
      (let r := rightHandStep st.smoothRightPinch st.panPosition rh
       { smoothRightPinch := r.smooth, smoothLeftFingerCenter := st.smoothLeftFingerCenter,
         wasContacting := false, prevLeftPos := st.prevLeftPos,
         rotationVelocity := ⟨0, 0⟩, zoomSpeed := 0,
         panPosition := r.pan, isDragging := r.dragging, gesture := r.gesture }) := by
  simp [processFrame, isContactingOf_noLeft]

theorem processFrame_leftOnly (st : S) (lh : Hand) :
    processFrame st ⟨some lh, none⟩ =
      (let l := leftHandStep st.smoothLeftFingerCenter st.prevLeftPos GestureType.NONE lh
       { smoothRightPinch := st.smoothRightPinch, smoothLeftFingerCenter := l.smooth,
         wasContacting := false, prevLeftPos := l.prev,
         rotationVelocity := l.rotVel, zoomSpeed := l.zoom,
         panPosition := st.panPosition, isDragging := false, gesture := l.gesture }) := by
  simp [processFrame, isContactingOf_noRight]

theorem isContactingOf_both_false (st : S) (lh rh : Hand) :
    isContactingOf st ⟨some lh, some rh⟩ = false ↔
      ¬ getDistance (lh 0) (rh 0) <
        (if st.wasContacting then CONTACT_THRESHOLD * 1.3 else CONTACT_THRESHOLD) := by
  rw [← Bool.not_eq_true, isContactingOf_both]

/-! ## Claim C8 -/

/-- C8: for every frame with zero hands detected, classification completes
without raising any error (`processFrame` is a total function) and the
published control state is label `NONE`, `rotationVelocity = {0,0}`,
`zoomSpeed = 0`, `isDragging = false`. -/
theorem zero_hands_rest_state (st : S) :
    (processFrame st ⟨none, none⟩).gesture = GestureType.NONE ∧
    (processFrame st ⟨none, none⟩).rotationVelocity = ⟨0, 0⟩ ∧
    (processFrame st ⟨none, none⟩).zoomSpeed = 0 ∧
    (processFrame st ⟨none, none⟩).isDragging = false := by
  simp [processFrame_noHands]

/-! ## Claim C4 -/

/-- C4: on any frame where dual-hand contact holds (wrist distance below
the hysteresis threshold of the current frame), the classified label is
`DUAL_HAND_CONTACT`, the published control state has zero rotation
velocity, zero zoom speed and `isDragging = false`, and neither the
right-hand pinch nor any left-hand gesture is evaluated: the pinch anchor,
the two-finger anchor, the rotation history and the pan target are all
left untouched. -/
theorem dual_contact_supersedes (st : S) (lh rh : Hand)
    (h : getDistance (lh 0) (rh 0) <
      (if st.wasContacting then CONTACT_THRESHOLD * 1.3 else CONTACT_THRESHOLD)) :
    (processFrame st ⟨some lh, some rh⟩).gesture = GestureType.DUAL_HAND_CONTACT ∧
    (processFrame st ⟨some lh, some rh⟩).rotationVelocity = ⟨0, 0⟩ ∧
    (processFrame st ⟨some lh, some rh⟩).zoomSpeed = 0 ∧
    (processFrame st ⟨some lh, some rh⟩).isDragging = false ∧
    (processFrame st ⟨some lh, some rh⟩).smoothRightPinch = st.smoothRightPinch ∧
    (processFrame st ⟨some lh, some rh⟩).smoothLeftFingerCenter = st.smoothLeftFingerCenter ∧
    (processFrame st ⟨some lh, some rh⟩).prevLeftPos = st.prevLeftPos ∧
    (processFrame st ⟨some lh, some rh⟩).panPosition = st.panPosition := by
  rw [processFrame_contact_both st lh rh ((isContactingOf_both st lh rh).mpr h)]
  simp

/-- Witness for C4, at the spec's Scenario C: two hands with wrist
distance 0.05 and enter threshold 0.12. -/
theorem dual_contact_supersedes_witness :
    (getDistance (constHand ⟨0, 0⟩ 0) (constHand ⟨0.05, 0⟩ 0) <
      (if initState.wasContacting then CONTACT_THRESHOLD * 1.3 else CONTACT_THRESHOLD)) ∧
    (processFrame initState ⟨some (constHand ⟨0, 0⟩), some (constHand ⟨0.05, 0⟩)⟩).gesture
        = GestureType.DUAL_HAND_CONTACT ∧
    (processFrame initState ⟨some (constHand ⟨0, 0⟩), some (constHand ⟨0.05, 0⟩)⟩).rotationVelocity
        = ⟨0, 0⟩ ∧
    (processFrame initState ⟨some (constHand ⟨0, 0⟩), some (constHand ⟨0.05, 0⟩)⟩).zoomSpeed
        = 0 ∧
    (processFrame initState ⟨some (constHand ⟨0, 0⟩), some (constHand ⟨0.05, 0⟩)⟩).isDragging
        = false := by
  have h : getDistance (constHand (⟨0, 0⟩ : Pt) 0) (constHand (⟨0.05, 0⟩ : Pt) 0) <
      (if initState.wasContacting then CONTACT_THRESHOLD * 1.3 else CONTACT_THRESHOLD) := by
    simp only [constHand, initState, getDistance_same_y, CONTACT_THRESHOLD]
    norm_num [abs_lt]
  have hmain := dual_contact_supersedes initState (constHand ⟨0, 0⟩) (constHand ⟨0.05, 0⟩) h
  exact ⟨h, hmain.1, hmain.2.1, hmain.2.2.1, hmain.2.2.2.1⟩

/-! ## Claim C2

The enter half of the claim matches the code, but the exit boundary does
not: the code stays in contact exactly while `dist < CONTACT_THRESHOLD *
1.3`, so at a distance exactly equal to `CONTACT_THRESHOLD * 1.3` the
contact state is dropped, not retained. -/

/-- A state that is currently in dual-hand contact. -/
noncomputable def stContacting : S := { initState with wasContacting := true }

/-- Counterexample to C2 as stated: with the contact flag cached `true`
and a wrist distance exactly `CONTACT_THRESHOLD * 1.3` (which is not
greater than `CONTACT_THRESHOLD * 1.3`, so the claim requires the contact
state to be retained), the code exits the contact state. -/
theorem contact_exit_boundary_counterexample :
    stContacting.wasContacting = true ∧
    getDistance (constHand ⟨0, 0⟩ 0) (constHand ⟨0.156, 0⟩ 0) = CONTACT_THRESHOLD * 1.3 ∧
    ¬ getDistance (constHand ⟨0, 0⟩ 0) (constHand ⟨0.156, 0⟩ 0) > CONTACT_THRESHOLD * 1.3 ∧
    (processFrame stContacting
      ⟨some (constHand ⟨0, 0⟩), some (constHand ⟨0.156, 0⟩)⟩).wasContacting = false := by
  have hd : getDistance (constHand (⟨0, 0⟩ : Pt) 0) (constHand (⟨0.156, 0⟩ : Pt) 0)
      = CONTACT_THRESHOLD * 1.3 := by
    simp only [constHand, getDistance_same_y, CONTACT_THRESHOLD]
    norm_num
  have hc : isContactingOf stContacting
      ⟨some (constHand ⟨0, 0⟩), some (constHand ⟨0.156, 0⟩)⟩ = false := by
    rw [isContactingOf_both_false, hd]
    simp [stContacting, initState]
  refine ⟨rfl, hd, by rw [hd]; exact lt_irrefl _, ?_⟩
  rw [processFrame_noContact_both _ _ _ hc]

/-- C2, amended: on every frame where both hands are present, the cached
contact state after the frame holds exactly when the wrist distance is
strictly below the hysteresis threshold — `CONTACT_THRESHOLD` when the
cached flag was false, `CONTACT_THRESHOLD * 1.3` when it was true.  In
particular contact is exited at any distance `≥ CONTACT_THRESHOLD * 1.3`,
including a distance exactly equal to it. -/
theorem contact_hysteresis_rule (st : S) (lh rh : Hand) :
    (processFrame st ⟨some lh, some rh⟩).wasContacting = true ↔
      getDistance (lh 0) (rh 0) <
        (if st.wasContacting then CONTACT_THRESHOLD * 1.3 else CONTACT_THRESHOLD) := by
  rw [← isContactingOf_both st lh rh]
  rcases Bool.eq_false_or_eq_true (isContactingOf st ⟨some lh, some rh⟩) with hc | hc
  · rw [processFrame_contact_both st lh rh hc, hc]
  · rw [processFrame_noContact_both st lh rh hc, hc]

/-! ## Claim C3 -/

theorem runFrames_succ (st : S) (F : ℕ → Frame) (n : ℕ) :
    runFrames st F (n + 1) = processFrame (runFrames st F n) (F n) := rfl

theorem enter_le_threshold (b : Bool) :
    CONTACT_THRESHOLD ≤ (if b then CONTACT_THRESHOLD * 1.3 else CONTACT_THRESHOLD) := by
  cases b <;> norm_num [CONTACT_THRESHOLD]

/-- C3: for every run in which both hands stay present, the wrist distance
crosses below `CONTACT_THRESHOLD` at frame `k`, and afterwards stays
strictly between `CONTACT_THRESHOLD` and `CONTACT_THRESHOLD * 1.3`, the
contact state is `true` on every frame from the crossing onward (the label
is `DUAL_HAND_CONTACT` each such frame, with no per-frame flips); a frame
whose distance exceeds `CONTACT_THRESHOLD * 1.3` never occurs under these
hypotheses. -/
theorem hysteresis_no_chatter (st : S) (F : ℕ → Frame) (L R : ℕ → Hand) (k : ℕ)
    (hF : ∀ n, F n = ⟨some (L n), some (R n)⟩)
    (hcross : getDistance (L k 0) (R k 0) < CONTACT_THRESHOLD)
    (hosc : ∀ n, k < n → CONTACT_THRESHOLD < getDistance (L n 0) (R n 0) ∧
        getDistance (L n 0) (R n 0) < CONTACT_THRESHOLD * 1.3) :
    ∀ n, k ≤ n → (runFrames st F (n + 1)).wasContacting = true ∧
        (runFrames st F (n + 1)).gesture = GestureType.DUAL_HAND_CONTACT := by
  intro n hn
  induction n, hn using Nat.le_induction with
  | base =>
      have hth : getDistance (L k 0) (R k 0) <
          (if (runFrames st F k).wasContacting then CONTACT_THRESHOLD * 1.3
           else CONTACT_THRESHOLD) :=
        lt_of_lt_of_le hcross (enter_le_threshold _)
      have hc := processFrame_contact_both (runFrames st F k) (L k) (R k)
        ((isContactingOf_both _ _ _).mpr hth)
      rw [runFrames_succ, hF k, hc]
      exact ⟨rfl, rfl⟩
  | succ n hkn ih =>
      have hosc' := hosc (n + 1) (Nat.lt_succ_of_le hkn)
      have hth : getDistance (L (n + 1) 0) (R (n + 1) 0) <
          (if (runFrames st F (n + 1)).wasContacting then CONTACT_THRESHOLD * 1.3
           else CONTACT_THRESHOLD) := by
        simpa [ih.1] using hosc'.2
      have hc := processFrame_contact_both (runFrames st F (n + 1)) (L (n + 1)) (R (n + 1))
        ((isContactingOf_both _ _ _).mpr hth)
      rw [runFrames_succ, hF (n + 1), hc]
      exact ⟨rfl, rfl⟩

/-- Oscillating right hand for the C3 witness: distance 0.05 at frame 0,
then 0.13 (strictly between the enter and exit thresholds) afterwards. -/
noncomputable def oscR : ℕ → Hand := fun n =>
  match n with
  | 0 => constHand ⟨0.05, 0⟩
  | _ + 1 => constHand ⟨0.13, 0⟩

/-- Frames for the C3 witness. -/
noncomputable def oscF : ℕ → Frame := fun n => ⟨some (constHand ⟨0, 0⟩), some (oscR n)⟩

/-- Witness for C3: a concrete crossing at frame 0 followed by an
in-between distance; contact still holds after frame 1. -/
theorem hysteresis_no_chatter_witness :
    getDistance (constHand ⟨0, 0⟩ 0) (oscR 0 0) < CONTACT_THRESHOLD ∧
    (runFrames initState oscF 2).wasContacting = true ∧
    (runFrames initState oscF 2).gesture = GestureType.DUAL_HAND_CONTACT := by
  have hF : ∀ n, oscF n = ⟨some (constHand ⟨0, 0⟩), some (oscR n)⟩ := fun n => rfl
  have hcross : getDistance (constHand (⟨0, 0⟩ : Pt) 0) (oscR 0 0) < CONTACT_THRESHOLD := by
    show getDistance (⟨0, 0⟩ : Pt) (⟨0.05, 0⟩ : Pt) < CONTACT_THRESHOLD
    rw [getDistance_same_y, CONTACT_THRESHOLD]
    norm_num [abs_lt]
  have hosc : ∀ n, 0 < n → CONTACT_THRESHOLD < getDistance (constHand (⟨0, 0⟩ : Pt) 0) (oscR n 0) ∧
      getDistance (constHand (⟨0, 0⟩ : Pt) 0) (oscR n 0) < CONTACT_THRESHOLD * 1.3 := by
    intro n hn
    match n, hn with
    | m + 1, _ =>
      show CONTACT_THRESHOLD < getDistance (⟨0, 0⟩ : Pt) (⟨0.13, 0⟩ : Pt) ∧
        getDistance (⟨0, 0⟩ : Pt) (⟨0.13, 0⟩ : Pt) < CONTACT_THRESHOLD * 1.3
      rw [getDistance_same_y, CONTACT_THRESHOLD]
      constructor <;> norm_num [abs_of_nonneg, abs_lt]
  have h := hysteresis_no_chatter initState oscF (fun _ => constHand ⟨0, 0⟩) oscR 0
    hF hcross hosc 1 (by omega)
  exact ⟨hcross, h.1, h.2⟩

/-! ## Claim C5 -/

theorem getDistance_same_y_of_le (a b y : ℝ) (h : a ≤ b) :
    getDistance ⟨a, y⟩ ⟨b, y⟩ = b - a := by
  rw [getDistance_same_y, abs_sub_comm, abs_of_nonneg (sub_nonneg.mpr h)]

/-- The raw pinch midpoint (thumb tip / index tip). -/
noncomputable def pinchRaw (rh : Hand) : Pt :=
  ⟨((rh 4).x + (rh 8).x) / 2, ((rh 4).y + (rh 8).y) / 2⟩

/-- The adaptively smoothed pinch anchor after one update toward `raw`. -/
noncomputable def adaptiveNext (smooth raw : Pt) : Pt :=
  let dx := raw.x - smooth.x
  let dy := raw.y - smooth.y
  let movementDelta := Real.sqrt (dx * dx + dy * dy)
  let adaptiveFactor := min 0.85 (max 0.1 (movementDelta * 15))
  ⟨lerp smooth.x raw.x adaptiveFactor, lerp smooth.y raw.y adaptiveFactor⟩

theorem rightHandStep_noPinch (smooth pan : Pt) (rh : Hand)
    (h : ¬ getPinchDistance rh < PINCH_THRESHOLD) :
    rightHandStep smooth pan rh =
      ⟨⟨(rh 0).x, (rh 0).y⟩, pan, false, GestureType.NONE⟩ := by
  simp [rightHandStep, h]

theorem rightHandStep_pinch (smooth pan : Pt) (rh : Hand)
    (h : getPinchDistance rh < PINCH_THRESHOLD) :
    rightHandStep smooth pan rh =
      { smooth := adaptiveNext smooth (pinchRaw rh),
        pan := ⟨(0.5 - (adaptiveNext smooth (pinchRaw rh)).x) * DRAG_SCALE_X,
                (0.5 - (adaptiveNext smooth (pinchRaw rh)).y) * DRAG_SCALE_Y⟩,
        dragging := true,
        gesture := GestureType.RIGHT_PINCH_DRAG } := by
  simp [rightHandStep, adaptiveNext, pinchRaw, h]

/-- Contact is active this frame: both hands are present and the wrist
distance is below the hysteresis threshold of the current frame. -/
def contactActive (st : S) (f : Frame) : Prop :=
  isContactingOf st f = true

/-- `RIGHT_PINCH_DRAG` qualifies this frame: no dual contact, a right hand
is observed, and its pinch distance is below `PINCH_THRESHOLD`. -/
noncomputable def rightPinchActive (st : S) (f : Frame) : Prop :=
  ¬ contactActive st f ∧ ∃ rh, f.right = some rh ∧ getPinchDistance rh < PINCH_THRESHOLD

/-- C5: on every frame where `RIGHT_PINCH_DRAG` is not active, the
published `panPosition` retains exactly its previous value; in particular,
on frames where the right hand is present but not pinching (and no dual
contact holds) the pinch smoothing anchor is silently re-anchored to the
current wrist position while `panPosition` is still unchanged. -/
theorem pan_written_only_while_pinching (st : S) (f : Frame)
    (h : ¬ rightPinchActive st f) :
    (processFrame st f).panPosition = st.panPosition ∧
    (∀ rh, f.right = some rh → ¬ contactActive st f →
      PINCH_THRESHOLD ≤ getPinchDistance rh →
      (processFrame st f).smoothRightPinch = ⟨(rh 0).x, (rh 0).y⟩) := by
  obtain ⟨lo, ro⟩ := f
  rcases ro with _ | rh
  · refine ⟨?_, ?_⟩
    · rcases lo with _ | lh
      · rw [processFrame_noHands]
      · rw [processFrame_leftOnly]
    · intro rh hrh
      cases hrh
  · by_cases hc : contactActive st ⟨lo, some rh⟩
    · rcases lo with _ | lh
      · exact absurd hc (by simp [contactActive, isContactingOf_noLeft])
      · rw [processFrame_contact_both st lh rh hc]
        exact ⟨rfl, fun rh' _ h2 _ => absurd hc h2⟩
    · have hpinch : ¬ getPinchDistance rh < PINCH_THRESHOLD := by
        intro hp
        exact h ⟨hc, rh, rfl, hp⟩
      have hr := rightHandStep_noPinch st.smoothRightPinch st.panPosition rh hpinch
      rcases lo with _ | lh
      · rw [processFrame_rightOnly]
        refine ⟨by simp [hr], ?_⟩
        intro rh' h1 _ _
        injection h1 with h1
        subst h1
        simp [hr]
      · have hcf : isContactingOf st ⟨some lh, some rh⟩ = false := by
          rw [← Bool.not_eq_true]
          exact hc
        rw [processFrame_noContact_both st lh rh hcf]
        refine ⟨by simp [hr], ?_⟩
        intro rh' h1 _ _
        injection h1 with h1
        subst h1
        simp [hr]

/-- An open right hand for the C5 witness: thumb tip at (0.2, 0.7), every
other landmark (including the wrist and index tip) at (0.4, 0.7); its
pinch distance is 0.2, well above `PINCH_THRESHOLD`. -/
noncomputable def openRight : Hand := fun i => if i = 4 then ⟨0.2, 0.7⟩ else ⟨0.4, 0.7⟩

/-- Witness for C5: a right-hand-only frame that is not pinching leaves
`panPosition` untouched and re-anchors the pinch smoothing anchor to the
wrist position (0.4, 0.7). -/
theorem pan_written_only_while_pinching_witness :
    ¬ rightPinchActive initState ⟨none, some openRight⟩ ∧
    (processFrame initState ⟨none, some openRight⟩).panPosition = initState.panPosition ∧
    (processFrame initState ⟨none, some openRight⟩).smoothRightPinch = ⟨0.4, 0.7⟩ := by
  have hpd : getPinchDistance openRight = 0.2 := by
    show getDistance (⟨0.2, 0.7⟩ : Pt) (⟨0.4, 0.7⟩ : Pt) = 0.2
    rw [getDistance_same_y_of_le _ _ _ (by norm_num)]
    norm_num
  have hge : PINCH_THRESHOLD ≤ getPinchDistance openRight := by
    rw [hpd, PINCH_THRESHOLD]
    norm_num
  have hna : ¬ rightPinchActive initState ⟨none, some openRight⟩ := by
    rintro ⟨-, rh, hrh, hlt⟩
    injection hrh with hrh
    subst hrh
    rw [hpd, PINCH_THRESHOLD] at hlt
    norm_num at hlt
  have h := pan_written_only_while_pinching initState ⟨none, some openRight⟩ hna
  have hs := h.2 openRight rfl (by simp [contactActive, isContactingOf_noLeft]) hge
  refine ⟨hna, h.1, ?_⟩
  rw [hs]
  rfl

/-! ## Claim C6 -/

/-- Clamp of a value to `[lo, hi]`, as in the spec's reference rule. -/
noncomputable def clampSpec (v lo hi : ℝ) : ℝ := min hi (max lo v)

/-- The spec's reference adaptive-anchor rule (§4.2): `delta` is the
Euclidean distance between the raw midpoint and the anchor, `factor =
clamp(delta × K, Fmin, Fmax)` with `K = 15`, `Fmin = 0.1`, `Fmax = 0.85`,
and the anchor moves to `anchor + (raw − anchor) × factor` on both
coordinates with that single shared factor. -/
noncomputable def specAdaptiveUpdate (anchor raw : Pt) : Pt :=
  let delta := getDistance raw anchor
  let factor := clampSpec (delta * 15) 0.1 0.85
  ⟨anchor.x + (raw.x - anchor.x) * factor, anchor.y + (raw.y - anchor.y) * factor⟩

/-- C6: on each frame where `RIGHT_PINCH_DRAG` is active, the pinch-anchor
update performed by the code equals the spec's reference adaptive rule
applied to the raw thumb/index midpoint. -/
theorem adaptive_update_matches_spec (smooth pan : Pt) (rh : Hand)
    (h : getPinchDistance rh < PINCH_THRESHOLD) :
    (rightHandStep smooth pan rh).smooth = specAdaptiveUpdate smooth (pinchRaw rh) := by
  rw [rightHandStep_pinch smooth pan rh h]
  show adaptiveNext smooth (pinchRaw rh) = specAdaptiveUpdate smooth (pinchRaw rh)
  simp only [adaptiveNext, specAdaptiveUpdate, clampSpec, getDistance, lerp]
  have harg : ((pinchRaw rh).x - smooth.x) * ((pinchRaw rh).x - smooth.x) +
      ((pinchRaw rh).y - smooth.y) * ((pinchRaw rh).y - smooth.y)
      = ((pinchRaw rh).x - smooth.x) ^ 2 + ((pinchRaw rh).y - smooth.y) ^ 2 := by
    ring
  rw [harg]

/-- Witness for C6: a concrete pinching hand at (0.3, 0.3). -/
theorem adaptive_update_matches_spec_witness :
    getPinchDistance (constHand ⟨0.3, 0.3⟩) < PINCH_THRESHOLD ∧
    (rightHandStep ⟨0.5, 0.5⟩ ⟨0, 0⟩ (constHand ⟨0.3, 0.3⟩)).smooth =
      specAdaptiveUpdate ⟨0.5, 0.5⟩ (pinchRaw (constHand ⟨0.3, 0.3⟩)) := by
  have h : getPinchDistance (constHand (⟨0.3, 0.3⟩ : Pt)) < PINCH_THRESHOLD := by
    rw [getPinchDistance_constHand, PINCH_THRESHOLD]
    norm_num
  exact ⟨h, adaptive_update_matches_spec ⟨0.5, 0.5⟩ ⟨0, 0⟩ (constHand ⟨0.3, 0.3⟩) h⟩

/-! ## Claim C7 -/

/-- The raw index/middle midpoint of the left hand. -/
noncomputable def rotRaw (lh : Hand) : Pt :=
  ⟨((lh 8).x + (lh 12).x) / 2, ((lh 8).y + (lh 12).y) / 2⟩

/-- The two-finger anchor after one fixed-rate smoothing step. -/
noncomputable def rotNext (smooth : Pt) (lh : Hand) : Pt :=
  ⟨lerp smooth.x (rotRaw lh).x SMOOTHING_FACTOR_ROTATION,
   lerp smooth.y (rotRaw lh).y SMOOTHING_FACTOR_ROTATION⟩

/-- `LEFT_TWO_FINGER_ROTATE` qualifies: index and middle tips within
`FINGER_CONTACT_THRESHOLD` and both fingers extended. -/
noncomputable def rotateQualifies (lh : Hand) : Prop :=
  getDistance (lh 8) (lh 12) < FINGER_CONTACT_THRESHOLD ∧
  isFingerExtended lh 8 6 ∧ isFingerExtended lh 12 10

theorem leftHandStep_rotate (smooth : Pt) (prevOpt : Option Pt) (g : GestureType) (lh : Hand)
    (h : rotateQualifies lh) :
    (leftHandStep smooth prevOpt g lh).gesture = GestureType.LEFT_TWO_FINGER_ROTATE ∧
    (leftHandStep smooth prevOpt g lh).smooth = rotNext smooth lh ∧
    (leftHandStep smooth prevOpt g lh).prev = some (rotNext smooth lh) ∧
    (leftHandStep smooth prevOpt g lh).zoom = 0 ∧
    (prevOpt = none → (leftHandStep smooth prevOpt g lh).rotVel = ⟨0, 0⟩) ∧
    (∀ prev, prevOpt = some prev → (leftHandStep smooth prevOpt g lh).rotVel =
      (if |(rotNext smooth lh).x - prev.x| ≤ ROTATION_DEADZONE ∧
          |(rotNext smooth lh).y - prev.y| ≤ ROTATION_DEADZONE
       then ⟨0, 0⟩
       else ⟨((rotNext smooth lh).y - prev.y) * ROTATION_SENSITIVITY,
             -((rotNext smooth lh).x - prev.x) * ROTATION_SENSITIVITY⟩)) := by
  obtain ⟨h1, h2, h3⟩ := h
  simp only [leftHandStep, rotNext, rotRaw]
  rw [if_pos ⟨h1, h2, h3⟩]
  refine ⟨rfl, rfl, rfl, rfl, ?_, ?_⟩
  · intro hp
    subst hp
    rfl
  · intro prev hp
    subst hp
    simp only
    by_cases hd : |lerp smooth.x (((lh 8).x + (lh 12).x) / 2) SMOOTHING_FACTOR_ROTATION - prev.x|
        > ROTATION_DEADZONE ∨
        |lerp smooth.y (((lh 8).y + (lh 12).y) / 2) SMOOTHING_FACTOR_ROTATION - prev.y|
        > ROTATION_DEADZONE
    · rw [if_pos hd, if_neg]
      intro hle
      rcases hd with hd | hd
      · exact absurd hle.1 (not_le.mpr hd)
      · exact absurd hle.2 (not_le.mpr hd)
    · push_neg at hd
      rw [if_neg (by
        intro hor
        rcases hor with hor | hor
        · exact absurd hor (not_lt.mpr hd.1)
        · exact absurd hor (not_lt.mpr hd.2)), if_pos ⟨hd.1, hd.2⟩]

/-- C7: on a frame where `LEFT_TWO_FINGER_ROTATE` is active (left hand
present, no dual contact, rotate qualifying): if no prior smoothed
midpoint exists in the rotation history, the published rotation velocity
is `{0,0}`; otherwise, with `delta` the current smoothed anchor minus the
previous one, the velocity is `{0,0}` when `|delta.x| ≤ ROTATION_DEADZONE`
and `|delta.y| ≤ ROTATION_DEADZONE`, and otherwise has pitch (the `.x`
field of `rotationVelocity`) `delta.y * ROTATION_SENSITIVITY` and yaw (the
`.y` field) `-delta.x * ROTATION_SENSITIVITY`; in either case the current
smoothed anchor becomes the new rotation history value. -/
theorem rotation_velocity_rule (st : S) (lh : Hand) (ro : Option Hand)
    (hnc : ¬ contactActive st ⟨some lh, ro⟩)
    (hrot : rotateQualifies lh) :
    (processFrame st ⟨some lh, ro⟩).gesture = GestureType.LEFT_TWO_FINGER_ROTATE ∧
    (processFrame st ⟨some lh, ro⟩).prevLeftPos =
      some (rotNext st.smoothLeftFingerCenter lh) ∧
    (processFrame st ⟨some lh, ro⟩).smoothLeftFingerCenter =
      rotNext st.smoothLeftFingerCenter lh ∧
    (st.prevLeftPos = none → (processFrame st ⟨some lh, ro⟩).rotationVelocity = ⟨0, 0⟩) ∧
    (∀ prev, st.prevLeftPos = some prev →
      (processFrame st ⟨some lh, ro⟩).rotationVelocity =
        (if |(rotNext st.smoothLeftFingerCenter lh).x - prev.x| ≤ ROTATION_DEADZONE ∧
            |(rotNext st.smoothLeftFingerCenter lh).y - prev.y| ≤ ROTATION_DEADZONE
         then ⟨0, 0⟩
         else ⟨((rotNext st.smoothLeftFingerCenter lh).y - prev.y) * ROTATION_SENSITIVITY,
               -((rotNext st.smoothLeftFingerCenter lh).x - prev.x) *
                 ROTATION_SENSITIVITY⟩)) := by
  rcases ro with _ | rh
  · rw [processFrame_leftOnly]
    have hl := leftHandStep_rotate st.smoothLeftFingerCenter st.prevLeftPos
      GestureType.NONE lh hrot
    exact ⟨hl.1, hl.2.2.1, hl.2.1, hl.2.2.2.2.1, hl.2.2.2.2.2⟩
  · have hcf : isContactingOf st ⟨some lh, some rh⟩ = false := by
      rw [← Bool.not_eq_true]
      exact hnc
    rw [processFrame_noContact_both st lh rh hcf]
    have hl := leftHandStep_rotate st.smoothLeftFingerCenter st.prevLeftPos
      (rightHandStep st.smoothRightPinch st.panPosition rh).gesture lh hrot
    exact ⟨hl.1, hl.2.2.1, hl.2.1, hl.2.2.2.2.1, hl.2.2.2.2.2⟩

/-- A rotating left hand: index and middle tips together at (0.3, 0.3),
all other landmarks (including the PIP joints) at (0.3, 0.5). -/
noncomputable def rotHandA : Hand := fun i =>
  if i = 8 ∨ i = 12 then ⟨0.3, 0.3⟩ else ⟨0.3, 0.5⟩

/-- State with a cached rotation-history anchor at (0.42, 0.42). -/
noncomputable def stPrev : S := { initState with prevLeftPos := some ⟨0.42, 0.42⟩ }

theorem rotHandA_qualifies : rotateQualifies rotHandA := by
  refine ⟨?_, ?_, ?_⟩
  · show getDistance (⟨0.3, 0.3⟩ : Pt) (⟨0.3, 0.3⟩ : Pt) < FINGER_CONTACT_THRESHOLD
    rw [getDistance_self, FINGER_CONTACT_THRESHOLD]
    norm_num
  · show (0.3 : ℝ) < 0.5
    norm_num
  · show (0.3 : ℝ) < 0.5
    norm_num

theorem rotNext_rotHandA (a : ℝ) :
    rotNext ⟨a, a⟩ rotHandA = ⟨a + (0.3 - a) * 0.4, a + (0.3 - a) * 0.4⟩ := by
  simp only [rotNext, rotRaw, lerp, rotHandA, SMOOTHING_FACTOR_ROTATION]
  norm_num

/-- Witness for C7: a rotate frame whose smoothed anchor lands exactly on
the cached previous anchor, so the deadzone keeps the velocity at zero,
and the anchor becomes the new rotation history. -/
theorem rotation_velocity_rule_witness :
    ¬ contactActive stPrev ⟨some rotHandA, none⟩ ∧
    rotateQualifies rotHandA ∧
    (processFrame stPrev ⟨some rotHandA, none⟩).gesture =
      GestureType.LEFT_TWO_FINGER_ROTATE ∧
    (processFrame stPrev ⟨some rotHandA, none⟩).rotationVelocity = ⟨0, 0⟩ ∧
    (processFrame stPrev ⟨some rotHandA, none⟩).prevLeftPos = some ⟨0.42, 0.42⟩ := by
  have hnc : ¬ contactActive stPrev ⟨some rotHandA, none⟩ := by
    simp [contactActive, isContactingOf_noRight]
  have h := rotation_velocity_rule stPrev rotHandA none hnc rotHandA_qualifies
  have hrn : rotNext stPrev.smoothLeftFingerCenter rotHandA = ⟨0.42, 0.42⟩ := by
    show rotNext (⟨0.5, 0.5⟩ : Pt) rotHandA = _
    rw [rotNext_rotHandA]
    norm_num
  have hv := h.2.2.2.2 ⟨0.42, 0.42⟩ rfl
  rw [hrn] at hv
  have hcond : |((⟨0.42, 0.42⟩ : Pt)).x - ((⟨0.42, 0.42⟩ : Pt)).x| ≤ ROTATION_DEADZONE ∧
      |((⟨0.42, 0.42⟩ : Pt)).y - ((⟨0.42, 0.42⟩ : Pt)).y| ≤ ROTATION_DEADZONE := by
    rw [ROTATION_DEADZONE]
    norm_num
  rw [if_pos hcond] at hv
  have hprev := h.2.1
  rw [hrn] at hprev
  exact ⟨hnc, rotHandA_qualifies, h.1, hv, hprev⟩

/-! ## Claim C10 -/

/-- `ZOOM_IN_PALM` qualifies: all four fingers extended and the
index/middle tips apart. -/
noncomputable def palmQualifies (lh : Hand) : Prop :=
  isFingerExtended lh 8 6 ∧ isFingerExtended lh 12 10 ∧ isFingerExtended lh 16 14 ∧
  isFingerExtended lh 20 18 ∧ getDistance (lh 8) (lh 12) ≥ FINGER_CONTACT_THRESHOLD

/-- `ZOOM_OUT_FIST` qualifies: all four fingers folded. -/
def fistQualifies (lh : Hand) : Prop :=
  ¬ isFingerExtended lh 8 6 ∧ ¬ isFingerExtended lh 12 10 ∧ ¬ isFingerExtended lh 16 14 ∧
  ¬ isFingerExtended lh 20 18

theorem leftHandStep_palm (smooth : Pt) (prevOpt : Option Pt) (g : GestureType) (lh : Hand)
    (h : palmQualifies lh) :
    leftHandStep smooth prevOpt g lh =
      { smooth := rotNext smooth lh, prev := none, rotVel := ⟨0, 0⟩,
        zoom := ZOOM_SENSITIVITY, gesture := GestureType.ZOOM_IN_PALM } := by
  obtain ⟨h1, h2, h3, h4, h5⟩ := h
  simp only [leftHandStep, rotNext, rotRaw]
  rw [if_neg fun hc => absurd hc.1 (not_lt.mpr h5), if_pos ⟨h1, h2, h3, h4, h5⟩]

theorem leftHandStep_fist (smooth : Pt) (prevOpt : Option Pt) (g : GestureType) (lh : Hand)
    (h : fistQualifies lh) :
    leftHandStep smooth prevOpt g lh =
      { smooth := rotNext smooth lh, prev := none, rotVel := ⟨0, 0⟩,
        zoom := -ZOOM_SENSITIVITY, gesture := GestureType.ZOOM_OUT_FIST } := by
  obtain ⟨h1, h2, h3, h4⟩ := h
  simp only [leftHandStep, rotNext, rotRaw]
  rw [if_neg fun hc => absurd hc.2.1 h1, if_neg fun hc => absurd hc.1 h1,
    if_pos ⟨h1, h2, h3, h4⟩]

/-- C10 (implicit in the code): when dual-hand contact is not active and
both a right-hand pinch and a left-hand gesture qualify on the same frame,
the label delivered to the observer is the left-hand one (rotate, palm or
fist overwrites `RIGHT_PINCH_DRAG`), while `isDragging` stays `true` and
`panPosition` is still updated to the mapped smoothed pinch anchor, so
pinch dragging and a left-hand rotation or zoom coexist in the same
published control state. -/
theorem left_label_overrides_pinch (st : S) (lh rh : Hand)
    (hnc : ¬ contactActive st ⟨some lh, some rh⟩)
    (hpinch : getPinchDistance rh < PINCH_THRESHOLD) :
    (rotateQualifies lh →
      (processFrame st ⟨some lh, some rh⟩).gesture = GestureType.LEFT_TWO_FINGER_ROTATE) ∧
    (palmQualifies lh →
      (processFrame st ⟨some lh, some rh⟩).gesture = GestureType.ZOOM_IN_PALM) ∧
    (fistQualifies lh →
      (processFrame st ⟨some lh, some rh⟩).gesture = GestureType.ZOOM_OUT_FIST) ∧
    (processFrame st ⟨some lh, some rh⟩).isDragging = true ∧
    (processFrame st ⟨some lh, some rh⟩).panPosition =
      ⟨(0.5 - (adaptiveNext st.smoothRightPinch (pinchRaw rh)).x) * DRAG_SCALE_X,
       (0.5 - (adaptiveNext st.smoothRightPinch (pinchRaw rh)).y) * DRAG_SCALE_Y⟩ := by
  have hcf : isContactingOf st ⟨some lh, some rh⟩ = false := by
    rw [← Bool.not_eq_true]
    exact hnc
  rw [processFrame_noContact_both st lh rh hcf]
  have hr := rightHandStep_pinch st.smoothRightPinch st.panPosition rh hpinch
  refine ⟨?_, ?_, ?_, ?_, ?_⟩
  · intro hq
    show (leftHandStep st.smoothLeftFingerCenter st.prevLeftPos
      (rightHandStep st.smoothRightPinch st.panPosition rh).gesture lh).gesture = _
    exact (leftHandStep_rotate _ _ _ lh hq).1
  · intro hq
    show (leftHandStep st.smoothLeftFingerCenter st.prevLeftPos
      (rightHandStep st.smoothRightPinch st.panPosition rh).gesture lh).gesture = _
    rw [leftHandStep_palm _ _ _ lh hq]
  · intro hq
    show (leftHandStep st.smoothLeftFingerCenter st.prevLeftPos
      (rightHandStep st.smoothRightPinch st.panPosition rh).gesture lh).gesture = _
    rw [leftHandStep_fist _ _ _ lh hq]
  · show (rightHandStep st.smoothRightPinch st.panPosition rh).dragging = true
    rw [hr]
  · show (rightHandStep st.smoothRightPinch st.panPosition rh).pan = _
    rw [hr]

/-- A pinching right hand with every landmark at (0.3, 0.3). -/
noncomputable def pinchHandB : Hand := constHand ⟨0.3, 0.3⟩

theorem getDistance_same_x (x a b : ℝ) : getDistance ⟨x, a⟩ ⟨x, b⟩ = |a - b| := by
  simp [getDistance, Real.sqrt_sq_eq_abs]

/-- Witness for C10: simultaneous left rotate and right pinch; the
published label is the left-hand one while dragging stays on. -/
theorem left_label_overrides_pinch_witness :
    ¬ contactActive initState ⟨some rotHandA, some pinchHandB⟩ ∧
    getPinchDistance pinchHandB < PINCH_THRESHOLD ∧
    rotateQualifies rotHandA ∧
    (processFrame initState ⟨some rotHandA, some pinchHandB⟩).gesture =
      GestureType.LEFT_TWO_FINGER_ROTATE ∧
    (processFrame initState ⟨some rotHandA, some pinchHandB⟩).isDragging = true := by
  have hpinch : getPinchDistance pinchHandB < PINCH_THRESHOLD := by
    show getPinchDistance (constHand ⟨0.3, 0.3⟩) < PINCH_THRESHOLD
    rw [getPinchDistance_constHand, PINCH_THRESHOLD]
    norm_num
  have hnc : ¬ contactActive initState ⟨some rotHandA, some pinchHandB⟩ := by
    intro hc
    have hd := (isContactingOf_both initState rotHandA pinchHandB).mp hc
    rw [show (initState.wasContacting : Bool) = false from rfl] at hd
    simp only [Bool.false_eq_true, if_false] at hd
    have : getDistance (rotHandA 0) (pinchHandB 0) = 0.2 := by
      show getDistance (⟨0.3, 0.5⟩ : Pt) (⟨0.3, 0.3⟩ : Pt) = 0.2
      rw [getDistance_same_x]
      norm_num
    rw [this, CONTACT_THRESHOLD] at hd
    norm_num at hd
  have h := left_label_overrides_pinch initState rotHandA pinchHandB hnc hpinch
  exact ⟨hnc, hpinch, rotHandA_qualifies, h.1 rotHandA_qualifies, h.2.2.2.1⟩

/-! ## Claim C1

The code clears `prevLeftPosRef` only inside the left-hand branch, which
runs only when a left hand is observed and dual-hand contact is not
active.  On a frame with no left-hand observation (or with contact active)
the rotation history is retained, so re-acquiring the rotate gesture after
such a frame computes a rotation delta against the stale pre-drop anchor.
The following run exhibits this: rotate at frame 0 (caching the smoothed
anchor (0.42, 0.42)), then a frame with zero hands — the rotate gesture is
not classified (label `NONE`) yet `prevLeftPos` is still `(0.42, 0.42)` at
the end of that frame's processing — then rotate again: the re-acquisition
frame publishes the non-zero rotation velocity `(-0.288, 0.288)` computed
against the pre-drop anchor. -/

noncomputable def stRot1 : S := processFrame initState ⟨some rotHandA, none⟩

noncomputable def stRot2 : S := processFrame stRot1 ⟨none, none⟩

noncomputable def stRot3 : S := processFrame stRot2 ⟨some rotHandA, none⟩

/-- Evaluation refuting C1 as stated: the zero-hand frame does not clear
the rotation history, and re-acquisition produces a rotation delta against
the stale pre-drop anchor. -/
theorem rotation_history_stale_after_drop :
    stRot1.gesture = GestureType.LEFT_TWO_FINGER_ROTATE ∧
    stRot2.gesture = GestureType.NONE ∧
    stRot2.prevLeftPos = some ⟨0.42, 0.42⟩ ∧
    stRot3.gesture = GestureType.LEFT_TWO_FINGER_ROTATE ∧
    stRot3.rotationVelocity = ⟨-0.288, 0.288⟩ := by
  have hl1 := leftHandStep_rotate ⟨0.5, 0.5⟩ none GestureType.NONE rotHandA rotHandA_qualifies
  have hrn1 : rotNext (⟨0.5, 0.5⟩ : Pt) rotHandA = ⟨0.42, 0.42⟩ := by
    rw [rotNext_rotHandA]
    norm_num
  have s1g : stRot1.gesture = GestureType.LEFT_TWO_FINGER_ROTATE := by
    show (processFrame initState ⟨some rotHandA, none⟩).gesture = _
    rw [processFrame_leftOnly]
    exact hl1.1
  have s1prev : stRot1.prevLeftPos = some ⟨0.42, 0.42⟩ := by
    show (processFrame initState ⟨some rotHandA, none⟩).prevLeftPos = _
    rw [processFrame_leftOnly]
    show (leftHandStep ⟨0.5, 0.5⟩ none GestureType.NONE rotHandA).prev = _
    rw [hl1.2.2.1, hrn1]
  have s1smooth : stRot1.smoothLeftFingerCenter = ⟨0.42, 0.42⟩ := by
    show (processFrame initState ⟨some rotHandA, none⟩).smoothLeftFingerCenter = _
    rw [processFrame_leftOnly]
    show (leftHandStep ⟨0.5, 0.5⟩ none GestureType.NONE rotHandA).smooth = _
    rw [hl1.2.1, hrn1]
  have s2g : stRot2.gesture = GestureType.NONE := by
    show (processFrame stRot1 ⟨none, none⟩).gesture = _
    rw [processFrame_noHands]
  have s2prev : stRot2.prevLeftPos = some ⟨0.42, 0.42⟩ := by
    show (processFrame stRot1 ⟨none, none⟩).prevLeftPos = _
    rw [processFrame_noHands]
    exact s1prev
  have s2smooth : stRot2.smoothLeftFingerCenter = ⟨0.42, 0.42⟩ := by
    show (processFrame stRot1 ⟨none, none⟩).smoothLeftFingerCenter = _
    rw [processFrame_noHands]
    exact s1smooth
  have hl3 := leftHandStep_rotate ⟨0.42, 0.42⟩ (some ⟨0.42, 0.42⟩) GestureType.NONE rotHandA
    rotHandA_qualifies
  have hrn3 : rotNext (⟨0.42, 0.42⟩ : Pt) rotHandA = ⟨0.372, 0.372⟩ := by
    rw [rotNext_rotHandA]
    norm_num
  have s3g : stRot3.gesture = GestureType.LEFT_TWO_FINGER_ROTATE := by
    show (processFrame stRot2 ⟨some rotHandA, none⟩).gesture = _
    rw [processFrame_leftOnly]
    show (leftHandStep stRot2.smoothLeftFingerCenter stRot2.prevLeftPos
      GestureType.NONE rotHandA).gesture = _
    rw [s2smooth, s2prev]
    exact hl3.1
  have habs : |(0.372 : ℝ) - 0.42| = 0.048 := by
    rw [abs_sub_comm, abs_of_nonneg (by norm_num : (0 : ℝ) ≤ 0.42 - 0.372)]
    norm_num
  have hcond : ¬ (|((⟨0.372, 0.372⟩ : Pt)).x - ((⟨0.42, 0.42⟩ : Pt)).x| ≤ ROTATION_DEADZONE ∧
      |((⟨0.372, 0.372⟩ : Pt)).y - ((⟨0.42, 0.42⟩ : Pt)).y| ≤ ROTATION_DEADZONE) := by
    intro hc
    have h1 := hc.1
    rw [show ((⟨0.372, 0.372⟩ : Pt)).x = 0.372 from rfl,
      show ((⟨0.42, 0.42⟩ : Pt)).x = 0.42 from rfl, habs, ROTATION_DEADZONE] at h1
    norm_num at h1
  have s3v : stRot3.rotationVelocity = ⟨-0.288, 0.288⟩ := by
    show (processFrame stRot2 ⟨some rotHandA, none⟩).rotationVelocity = _
    rw [processFrame_leftOnly]
    show (leftHandStep stRot2.smoothLeftFingerCenter stRot2.prevLeftPos
      GestureType.NONE rotHandA).rotVel = _
    rw [s2smooth, s2prev]
    have hv := hl3.2.2.2.2.2 ⟨0.42, 0.42⟩ rfl
    rw [hrn3] at hv
    rw [hv, if_neg hcond]
    norm_num [ROTATION_SENSITIVITY]
  exact ⟨s1g, s2g, s2prev, s3g, s3v⟩

/-! ## Claim C9 -/

theorem dist_after_lerp (s p : Pt) (f : ℝ) (hf : 0 ≤ 1 - f) :
    getDistance ⟨lerp s.x p.x f, lerp s.y p.y f⟩ p = (1 - f) * getDistance s p := by
  show Real.sqrt ((lerp s.x p.x f - p.x) ^ 2 + (lerp s.y p.y f - p.y) ^ 2)
      = (1 - f) * getDistance s p
  rw [show (lerp s.x p.x f - p.x) ^ 2 + (lerp s.y p.y f - p.y) ^ 2
      = ((s.x - p.x) ^ 2 + (s.y - p.y) ^ 2) * (1 - f) ^ 2 from by unfold lerp; ring,
    Real.sqrt_mul (by positivity) ((1 - f) ^ 2), Real.sqrt_sq hf]
  unfold getDistance
  ring

theorem adaptiveNext_fixed (s p : Pt) :
    ∃ f : ℝ, 0.1 ≤ f ∧ f ≤ 0.85 ∧
      adaptiveNext s p = ⟨lerp s.x p.x f, lerp s.y p.y f⟩ :=
  ⟨min 0.85 (max 0.1 (Real.sqrt ((p.x - s.x) * (p.x - s.x) + (p.y - s.y) * (p.y - s.y)) * 15)),
    le_min (by norm_num) (le_max_left _ _), min_le_left _ _, rfl⟩

/-- One adaptive step toward a fixed raw midpoint contracts the distance
to it by a factor of at most `1 - Fmin = 0.9`. -/
theorem adaptiveNext_contract (s p : Pt) :
    getDistance (adaptiveNext s p) p ≤ 0.9 * getDistance s p := by
  obtain ⟨f, hf0, hf1, he⟩ := adaptiveNext_fixed s p
  rw [he, dist_after_lerp s p f (by linarith)]
  have hd : 0 ≤ getDistance s p := Real.sqrt_nonneg _
  exact mul_le_mul_of_nonneg_right (by linarith : 1 - f ≤ 0.9) hd

theorem abs_sub_x_le_getDistance (q p : Pt) : |q.x - p.x| ≤ getDistance q p := by
  rw [← Real.sqrt_sq_eq_abs]
  unfold getDistance
  apply Real.sqrt_le_sqrt
  nlinarith [sq_nonneg (q.y - p.y)]

theorem abs_sub_y_le_getDistance (q p : Pt) : |q.y - p.y| ≤ getDistance q p := by
  rw [← Real.sqrt_sq_eq_abs]
  unfold getDistance
  apply Real.sqrt_le_sqrt
  nlinarith [sq_nonneg (q.x - p.x)]

theorem processFrame_pinchFrame (st : S) (rh : Hand)
    (hp : getPinchDistance rh < PINCH_THRESHOLD) :
    (processFrame st ⟨none, some rh⟩).smoothRightPinch
        = adaptiveNext st.smoothRightPinch (pinchRaw rh) ∧
    (processFrame st ⟨none, some rh⟩).panPosition =
      ⟨(0.5 - (adaptiveNext st.smoothRightPinch (pinchRaw rh)).x) * DRAG_SCALE_X,
       (0.5 - (adaptiveNext st.smoothRightPinch (pinchRaw rh)).y) * DRAG_SCALE_Y⟩ := by
  rw [processFrame_rightOnly]
  constructor
  · show (rightHandStep st.smoothRightPinch st.panPosition rh).smooth = _
    rw [rightHandStep_pinch _ _ _ hp]
  · show (rightHandStep st.smoothRightPinch st.panPosition rh).pan = _
    rw [rightHandStep_pinch _ _ _ hp]

/-- C9: for a pinch held with the same fixed raw midpoint `p` on every
successive `RIGHT_PINCH_DRAG` frame, the distance from the smoothed anchor
to `p` shrinks each frame by at least the factor `1 - Fmin` (with
`Fmin = 0.1`), so for every `ε > 0` there is an `N` after which the anchor
is within `ε` of `p`; and when `p` is the normalized center `(0.5, 0.5)`,
`panPosition` converges to the output-space center `(0, 0)`: its
coordinates become smaller than `DRAG_SCALE_X * ε` and `DRAG_SCALE_Y * ε`
respectively. -/
theorem pinch_convergence (st : S) (F : ℕ → Frame) (rh : ℕ → Hand) (p : Pt)
    (hF : ∀ n, F n = ⟨none, some (rh n)⟩)
    (hpinch : ∀ n, getPinchDistance (rh n) < PINCH_THRESHOLD)
    (hmid : ∀ n, pinchRaw (rh n) = p) :
    (∀ n, getDistance ((runFrames st F (n + 1)).smoothRightPinch) p ≤
        (1 - 0.1) * getDistance ((runFrames st F n).smoothRightPinch) p) ∧
    (∀ ε : ℝ, 0 < ε → ∃ N : ℕ, ∀ n, N ≤ n →
      getDistance ((runFrames st F n).smoothRightPinch) p < ε ∧
      (p = ⟨0.5, 0.5⟩ →
        |(runFrames st F (n + 1)).panPosition.x| < DRAG_SCALE_X * ε ∧
        |(runFrames st F (n + 1)).panPosition.y| < DRAG_SCALE_Y * ε)) := by
  have hstep : ∀ n, (runFrames st F (n + 1)).smoothRightPinch
      = adaptiveNext ((runFrames st F n).smoothRightPinch) p := by
    intro n
    have h1 := (processFrame_pinchFrame (runFrames st F n) (rh n) (hpinch n)).1
    rw [hmid n] at h1
    rw [runFrames_succ, hF n]
    exact h1
  have hcontract : ∀ n, getDistance ((runFrames st F (n + 1)).smoothRightPinch) p
      ≤ 0.9 * getDistance ((runFrames st F n).smoothRightPinch) p := by
    intro n
    rw [hstep n]
    exact adaptiveNext_contract _ p
  refine ⟨fun n => by rw [show (1 : ℝ) - 0.1 = 0.9 from by norm_num]; exact hcontract n, ?_⟩
  intro ε hε
  have hgeom : ∀ n, getDistance ((runFrames st F n).smoothRightPinch) p
      ≤ 0.9 ^ n * getDistance st.smoothRightPinch p := by
    intro n
    induction n with
    | zero => simp [runFrames]
    | succ n ih =>
        have h2 : (0.9 : ℝ) * getDistance ((runFrames st F n).smoothRightPinch) p
            ≤ 0.9 * (0.9 ^ n * getDistance st.smoothRightPinch p) :=
          mul_le_mul_of_nonneg_left ih (by norm_num)
        calc getDistance ((runFrames st F (n + 1)).smoothRightPinch) p
            ≤ 0.9 * getDistance ((runFrames st F n).smoothRightPinch) p := hcontract n
          _ ≤ 0.9 * (0.9 ^ n * getDistance st.smoothRightPinch p) := h2
          _ = 0.9 ^ (n + 1) * getDistance st.smoothRightPinch p := by ring
  have hd0 : 0 ≤ getDistance st.smoothRightPinch p := Real.sqrt_nonneg _
  obtain ⟨N, hN⟩ := exists_pow_lt_of_lt_one
    (show (0 : ℝ) < ε / (getDistance st.smoothRightPinch p + 1) by positivity)
    (show (0.9 : ℝ) < 1 by norm_num)
  have hdistN : ∀ m, N ≤ m →
      getDistance ((runFrames st F m).smoothRightPinch) p < ε := by
    intro m hm
    have hpow : (0.9 : ℝ) ^ m ≤ 0.9 ^ N :=
      pow_le_pow_of_le_one (by norm_num) (by norm_num) hm
    have hpn : (0 : ℝ) ≤ 0.9 ^ N := pow_nonneg (by norm_num) N
    calc getDistance ((runFrames st F m).smoothRightPinch) p
        ≤ 0.9 ^ m * getDistance st.smoothRightPinch p := hgeom m
      _ ≤ 0.9 ^ N * getDistance st.smoothRightPinch p :=
        mul_le_mul_of_nonneg_right hpow hd0
      _ ≤ 0.9 ^ N * (getDistance st.smoothRightPinch p + 1) := by nlinarith
      _ < (ε / (getDistance st.smoothRightPinch p + 1)) *
            (getDistance st.smoothRightPinch p + 1) :=
        mul_lt_mul_of_pos_right hN (by positivity)
      _ = ε := by field_simp
  refine ⟨N, fun n hn => ⟨hdistN n hn, ?_⟩⟩
  intro hp5
  subst hp5
  have hd1 : getDistance ((runFrames st F (n + 1)).smoothRightPinch) ⟨0.5, 0.5⟩ < ε :=
    hdistN (n + 1) (le_trans hn (Nat.le_succ n))
  have hpan := (processFrame_pinchFrame (runFrames st F n) (rh n) (hpinch n)).2
  rw [hmid n] at hpan
  have hpanEq : (runFrames st F (n + 1)).panPosition =
      ⟨(0.5 - ((runFrames st F (n + 1)).smoothRightPinch).x) * DRAG_SCALE_X,
       (0.5 - ((runFrames st F (n + 1)).smoothRightPinch).y) * DRAG_SCALE_Y⟩ := by
    rw [hstep n, runFrames_succ, hF n]
    exact hpan
  rw [hpanEq]
  have hXpos : (0 : ℝ) < DRAG_SCALE_X := by rw [DRAG_SCALE_X]; norm_num
  have hYpos : (0 : ℝ) < DRAG_SCALE_Y := by rw [DRAG_SCALE_Y]; norm_num
  constructor
  · show |(0.5 - ((runFrames st F (n + 1)).smoothRightPinch).x) * DRAG_SCALE_X|
        < DRAG_SCALE_X * ε
    rw [abs_mul, abs_of_pos hXpos]
    have hax : |0.5 - ((runFrames st F (n + 1)).smoothRightPinch).x|
        ≤ getDistance ((runFrames st F (n + 1)).smoothRightPinch) ⟨0.5, 0.5⟩ := by
      rw [abs_sub_comm]
      exact abs_sub_x_le_getDistance _ ⟨0.5, 0.5⟩
    calc |0.5 - ((runFrames st F (n + 1)).smoothRightPinch).x| * DRAG_SCALE_X
        ≤ getDistance ((runFrames st F (n + 1)).smoothRightPinch) ⟨0.5, 0.5⟩ * DRAG_SCALE_X :=
          mul_le_mul_of_nonneg_right hax (le_of_lt hXpos)
      _ < ε * DRAG_SCALE_X := mul_lt_mul_of_pos_right hd1 hXpos
      _ = DRAG_SCALE_X * ε := mul_comm _ _
  · show |(0.5 - ((runFrames st F (n + 1)).smoothRightPinch).y) * DRAG_SCALE_Y|
        < DRAG_SCALE_Y * ε
    rw [abs_mul, abs_of_pos hYpos]
    have hay : |0.5 - ((runFrames st F (n + 1)).smoothRightPinch).y|
        ≤ getDistance ((runFrames st F (n + 1)).smoothRightPinch) ⟨0.5, 0.5⟩ := by
      rw [abs_sub_comm]
      exact abs_sub_y_le_getDistance _ ⟨0.5, 0.5⟩
    calc |0.5 - ((runFrames st F (n + 1)).smoothRightPinch).y| * DRAG_SCALE_Y
        ≤ getDistance ((runFrames st F (n + 1)).smoothRightPinch) ⟨0.5, 0.5⟩ * DRAG_SCALE_Y :=
          mul_le_mul_of_nonneg_right hay (le_of_lt hYpos)
      _ < ε * DRAG_SCALE_Y := mul_lt_mul_of_pos_right hd1 hYpos
      _ = DRAG_SCALE_Y * ε := mul_comm _ _

theorem pinchRaw_constHand (p : Pt) : pinchRaw (constHand p) = p := by
  ext
  · show (p.x + p.x) / 2 = p.x
    ring
  · show (p.y + p.y) / 2 = p.y
    ring

/-- The spec's Scenario D frame stream: a right hand pinching stationary
at the normalized center (0.5, 0.5), no left hand. -/
noncomputable def stationaryF : ℕ → Frame := fun _ => ⟨none, some (constHand ⟨0.5, 0.5⟩)⟩

/-- Witness for C9, at Scenario D with `ε = 1`. -/
theorem pinch_convergence_witness :
    (0 : ℝ) < 1 ∧ ∃ N : ℕ, ∀ n, N ≤ n →
      getDistance ((runFrames initState stationaryF n).smoothRightPinch) ⟨0.5, 0.5⟩ < 1 ∧
      ((⟨0.5, 0.5⟩ : Pt) = ⟨0.5, 0.5⟩ →
        |(runFrames initState stationaryF (n + 1)).panPosition.x| < DRAG_SCALE_X * 1 ∧
        |(runFrames initState stationaryF (n + 1)).panPosition.y| < DRAG_SCALE_Y * 1) := by
  have hpinch : ∀ n : ℕ, getPinchDistance (constHand (⟨0.5, 0.5⟩ : Pt)) < PINCH_THRESHOLD := by
    intro n
    rw [getPinchDistance_constHand, PINCH_THRESHOLD]
    norm_num
  exact ⟨by norm_num,
    (pinch_convergence initState stationaryF (fun _ => constHand ⟨0.5, 0.5⟩) ⟨0.5, 0.5⟩
      (fun n => rfl) hpinch (fun n => pinchRaw_constHand _)).2 1 (by norm_num)⟩

end HandGesture
